import Mathlib

/-!
Verification of the syscall dispatcher and per-task statistics of
`os/src/syscall/mod.rs`.

The dispatcher `syscall` records every invocation in a process-wide
statistics store (`TOTAL_TASKS`, an array of `TaskStatBlock` behind a
`UPSafeCell` exclusive-access guard) and then routes the call identifier
to one of five handlers, panicking on unrecognized identifiers.

Modelling conventions:
- External collaborators are passed as explicit parameters:
  `TASK_MANAGER.get_current_task()` becomes a `current_task : Nat`
  argument and `get_time_ms()` becomes a `now : Nat` argument.
- Rust panics (out-of-bounds indexing, the explicit dispatch panic, and
  the `UPSafeCell` reentrancy abort) are modelled as `Except FatalReason`
  results, resp. `Option` at the `TaskStatBlock` level.
- `u32` counters are `Nat` and the unchecked `+= 1` is modelled with the
  release-build wrapping semantics `(x + 1) % U32_LIMIT`.
- Handlers (`sys_write`, ...) live in submodules outside the visible
  slice; the dispatcher is modelled as emitting which handler it routes
  to, with the argument words reinterpreted as in the source.
-/

/-- Modulus of the `u32` counter type of `call_time`. -/
def U32_LIMIT : Nat := 2 ^ 32

/-- Modelled from the spec: `MAX_SYSCALL_NUM` comes from `crate::config`,
which is outside the visible slice. The spec fixes it only as "the maximum
syscall-identifier-space constant"; it must exceed every recognized
identifier (the largest is 410), and the conventional value 500 is used. -/
def MAX_SYSCALL_NUM : Nat := 500

/-- Modelled from the spec: `MAX_APP_NUM` comes from `crate::config`,
which is outside the visible slice. The spec fixes it only as "the maximum
number of concurrently loaded tasks constant"; the value 16 is used. -/
def MAX_APP_NUM : Nat := 16

/-- write syscall identifier. -/
def SYSCALL_WRITE : Nat := 64
/-- exit syscall identifier. -/
def SYSCALL_EXIT : Nat := 93
/-- yield syscall identifier. -/
def SYSCALL_YIELD : Nat := 124
/-- gettime syscall identifier. -/
def SYSCALL_GET_TIME : Nat := 169
/-- taskinfo syscall identifier. -/
def SYSCALL_TASK_INFO : Nat := 410

/-- The closed set of recognized syscall identifiers. -/
def recognized_ids : List Nat :=
  [SYSCALL_WRITE, SYSCALL_EXIT, SYSCALL_YIELD, SYSCALL_GET_TIME, SYSCALL_TASK_INFO]

/-- Modelled from the spec: `UPSafeCell` comes from `crate::sync`, which is
outside the visible slice. Per the spec it is a single-core exclusive-access
wrapper: `exclusive_access` yields the content when no acquisition is
outstanding and is an immediate fatal condition (no blocking, no reentrant
acquisition) when one is; the `borrowed` flag records an outstanding
acquisition. -/
structure UPSafeCell (α : Type) where
  value : α
  borrowed : Bool
deriving DecidableEq

/-- Modelled from the spec: acquiring the guard. Returns the content, or
`none` (fatal abort) when an acquisition is already outstanding. -/
def UPSafeCell.exclusive_access {α : Type} (c : UPSafeCell α) : Option α :=
  if c.borrowed then none else some c.value

/-- Modelled from the spec: the cell as seen while an acquisition is
outstanding (the scoped guard has been taken and not yet released). -/
def UPSafeCell.acquire {α : Type} (c : UPSafeCell α) : UPSafeCell α :=
  { c with borrowed := true }

/-- Per-task statistics record (`TaskStatBlock` in the source):
`call_time` is the per-identifier `u32` counter array of length
`MAX_SYSCALL_NUM`, `start_time` the `usize` start timestamp. -/
structure TaskStatBlock where
  call_time : List Nat
  start_time : Nat
deriving DecidableEq

/-- Source `TaskStatBlock::get_total_syscall_times`: returns
`self.call_time.clone()`, a copy of the counter array. -/
def TaskStatBlock.get_total_syscall_times (b : TaskStatBlock) : List Nat :=
  b.call_time

/-- Source `TaskStatBlock::add_syscall_times`:
`self.call_time[syscall_id] += 1`. Indexing out of bounds panics
(`none`); the `u32` increment wraps modulo `U32_LIMIT`. -/
def TaskStatBlock.add_syscall_times (b : TaskStatBlock) (syscall_id : Nat) :
    Option TaskStatBlock :=
  if syscall_id < b.call_time.length then
    some { b with
      call_time := b.call_time.set syscall_id
        ((b.call_time.getD syscall_id 0 + 1) % U32_LIMIT) }
  else none

/-- Source `TaskStatBlock::get_syscall_times`: `self.call_time[syscall_id]`,
panicking (`none`) out of bounds. -/
def TaskStatBlock.get_syscall_times (b : TaskStatBlock) (syscall_id : Nat) :
    Option Nat :=
  if syscall_id < b.call_time.length then some (b.call_time.getD syscall_id 0)
  else none

/-- Source `TaskStatBlock::start_task_time`: `self.start_time = get_time_ms()`;
`now` stands for the timer's `get_time_ms()` value. -/
def TaskStatBlock.start_task_time (b : TaskStatBlock) (now : Nat) : TaskStatBlock :=
  { b with start_time := now }

/-- Source `TaskStatBlock::get_task_time`: returns `self.start_time`. -/
def TaskStatBlock.get_task_time (b : TaskStatBlock) : Nat :=
  b.start_time

/-- Reasons for the kernel's fatal paths reachable from this slice. -/
inductive FatalReason where
  /-- `UPSafeCell::exclusive_access` taken while an acquisition is outstanding. -/
  | reentrantAccess
  /-- Array indexing out of bounds (`call_time[id]` or `tasks[current_task]`). -/
  | indexOutOfBounds
  /-- The dispatcher's explicit panic on an unsupported `syscall_id`. -/
  | unsupportedSyscall
deriving DecidableEq

/-- The statistics store (`TotalTasks` in the source): a `UPSafeCell` over
the array of `MAX_APP_NUM` per-task records. -/
structure TotalTasks where
  inner : UPSafeCell (List TaskStatBlock)
deriving DecidableEq

/-- The default block used only as `List.getD` fallback in projections. -/
def emptyStatBlock : TaskStatBlock := ⟨[], 0⟩

/-- Source `TotalTasks::add_syscall_times`: looks up the current task slot,
takes exclusive access, and increments that slot's counter. `current_task`
stands for `TASK_MANAGER.get_current_task()`. The guard is released when
the scope ends, so the resulting cell is unborrowed. -/
def TotalTasks.add_syscall_times (t : TotalTasks) (current_task syscall_id : Nat) :
    Except FatalReason TotalTasks :=
  match t.inner.exclusive_access with
  | none => .error .reentrantAccess
  | some tasks =>
    if current_task < tasks.length then
      match (tasks.getD current_task emptyStatBlock).add_syscall_times syscall_id with
      | none => .error .indexOutOfBounds
      | some b => .ok ⟨⟨tasks.set current_task b, false⟩⟩
    else .error .indexOutOfBounds

/-- Source `TotalTasks::get_syscall_times`: reads the current slot's counter
for `syscall_id`. -/
def TotalTasks.get_syscall_times (t : TotalTasks) (current_task syscall_id : Nat) :
    Except FatalReason Nat :=
  match t.inner.exclusive_access with
  | none => .error .reentrantAccess
  | some tasks =>
    if current_task < tasks.length then
      match (tasks.getD current_task emptyStatBlock).get_syscall_times syscall_id with
      | none => .error .indexOutOfBounds
      | some n => .ok n
    else .error .indexOutOfBounds

/-- Source `TotalTasks::get_total_syscall_times`: returns a copy of the
current slot's whole counter array. -/
def TotalTasks.get_total_syscall_times (t : TotalTasks) (current_task : Nat) :
    Except FatalReason (List Nat) :=
  match t.inner.exclusive_access with
  | none => .error .reentrantAccess
  | some tasks =>
    if current_task < tasks.length then
      .ok (tasks.getD current_task emptyStatBlock).get_total_syscall_times
    else .error .indexOutOfBounds

/-- Source `TotalTasks::start_current_task_time`: sets the current slot's
`start_time` to `now` (the timer's `get_time_ms()`). -/
def TotalTasks.start_current_task_time (t : TotalTasks) (current_task now : Nat) :
    Except FatalReason TotalTasks :=
  match t.inner.exclusive_access with
  | none => .error .reentrantAccess
  | some tasks =>
    if current_task < tasks.length then
      .ok ⟨⟨tasks.set current_task
        ((tasks.getD current_task emptyStatBlock).start_task_time now), false⟩⟩
    else .error .indexOutOfBounds

/-- Source `TotalTasks::get_current_task_run_time`:
`get_time_ms() - tasks[current_task].get_task_time()`. The subtraction is
`Nat` truncated subtraction; the claims about it only concern the
no-underflow case (a monotone timer started earlier). -/
def TotalTasks.get_current_task_run_time (t : TotalTasks) (current_task now : Nat) :
    Except FatalReason Nat :=
  match t.inner.exclusive_access with
  | none => .error .reentrantAccess
  | some tasks =>
    if current_task < tasks.length then
      .ok (now - (tasks.getD current_task emptyStatBlock).get_task_time)
    else .error .indexOutOfBounds

/-- Reinterpretation `args[0] as i32` used by the exit route. -/
def usize_as_i32 (x : Nat) : Int :=
  if x % 2 ^ 32 < 2 ^ 31 then (x % 2 ^ 32 : Int) else (x % 2 ^ 32 : Int) - 2 ^ 32

/-- Which handler the dispatcher routes to, with the three raw argument
words reinterpreted per that handler's signature. The handlers themselves
(`fs`/`process` submodules) are outside the visible slice. -/
inductive HandlerCall where
  | sys_write (fd : Nat) (buf_ptr : Nat) (len : Nat)
  | sys_exit (exit_code : Int)
  | sys_yield
  | sys_get_time (ts_ptr : Nat) (tz : Nat)
  | sys_task_info (ti_ptr : Nat)
deriving DecidableEq

/-- Outcome of one `syscall` dispatch: either the statistics store after
recording together with the routed handler invocation, or a kernel panic
with the statistics store as it stood when the panic fired. -/
inductive SyscallOutcome where
  | ok (stats : TotalTasks) (call : HandlerCall)
  | fatal (reason : FatalReason) (stats : TotalTasks)
deriving DecidableEq

/-- Source `syscall`: unconditionally records the invocation via
`TOTAL_TASKS.add_syscall_times(syscall_id)` and then matches `syscall_id`
against the five recognized identifiers, panicking otherwise. -/
def syscall (t : TotalTasks) (current_task syscall_id : Nat)
    (args : Nat × Nat × Nat) : SyscallOutcome :=
  match t.add_syscall_times current_task syscall_id with
  | .error r => .fatal r t
  | .ok t2 =>
    if syscall_id = SYSCALL_WRITE then
      .ok t2 (.sys_write args.1 args.2.1 args.2.2)
    else if syscall_id = SYSCALL_EXIT then
      .ok t2 (.sys_exit (usize_as_i32 args.1))
    else if syscall_id = SYSCALL_YIELD then
      .ok t2 .sys_yield
    else if syscall_id = SYSCALL_GET_TIME then
      .ok t2 (.sys_get_time args.1 args.2.1)
    else if syscall_id = SYSCALL_TASK_INFO then
      .ok t2 (.sys_task_info args.1)
    else
      .fatal .unsupportedSyscall t2

/-- The lazily initialized global store: `MAX_APP_NUM` records, every
counter zero and `start_time` zero. -/
def TOTAL_TASKS : TotalTasks :=
  ⟨⟨List.replicate MAX_APP_NUM ⟨List.replicate MAX_SYSCALL_NUM 0, 0⟩, false⟩⟩

/-- Iterated dispatch: `n` consecutive `syscall` invocations with the same
identifier and arguments while `current_task` stays the current slot,
keeping only the statistics store; any panic aborts the sequence. -/
def syscallN (t : TotalTasks) (current_task syscall_id : Nat)
    (args : Nat × Nat × Nat) : Nat → Except FatalReason TotalTasks
  | 0 => .ok t
  | n + 1 =>
    match syscall t current_task syscall_id args with
    | .ok t2 _ => syscallN t2 current_task syscall_id args n
    | .fatal r _ => .error r

/-- Pure projection: the counter for `syscall_id` in slot `slot`. -/
def TotalTasks.counter (t : TotalTasks) (slot syscall_id : Nat) : Nat :=
  ((t.inner.value.getD slot emptyStatBlock).call_time).getD syscall_id 0

/-- Pure projection: the `start_time` of slot `slot`. -/
def TotalTasks.startOf (t : TotalTasks) (slot : Nat) : Nat :=
  (t.inner.value.getD slot emptyStatBlock).start_time

/-- Well-formedness of the store: no outstanding guard acquisition, the
table has `MAX_APP_NUM` slots, every record has a full-length counter
array, and every counter is a `u32` value. -/
def TotalTasks.wf (t : TotalTasks) : Prop :=
  t.inner.borrowed = false ∧
  t.inner.value.length = MAX_APP_NUM ∧
  ∀ b ∈ t.inner.value,
    b.call_time.length = MAX_SYSCALL_NUM ∧ ∀ c ∈ b.call_time, c < U32_LIMIT

/-- A small two-slot, two-counter store used as a concrete input in
witnesses (its shape is irrelevant to the theorems, which never assume
full `MAX_APP_NUM`/`MAX_SYSCALL_NUM` dimensions unless stated). -/
def sampleTasks : TotalTasks :=
  ⟨⟨[⟨[0, 5], 3⟩, ⟨[7, 1], 9⟩], false⟩⟩

/-- The store `sampleTasks` after one recording of identifier 1 in slot 0. -/
def sampleTasks2 : TotalTasks :=
  ⟨⟨[⟨[0, 6], 3⟩, ⟨[7, 1], 9⟩], false⟩⟩

/-! ## Helper lemmas -/

theorem list_getD_set_self {α : Type} (l : List α) (i : Nat) (v d : α)
    (h : i < l.length) : (l.set i v).getD i d = v := by
  rw [List.getD_eq_getElem?_getD, List.getElem?_set_self h]
  rfl

theorem list_getD_set_ne {α : Type} (l : List α) {i j : Nat} (v d : α)
    (h : i ≠ j) : (l.set i v).getD j d = l.getD j d := by
  rw [List.getD_eq_getElem?_getD, List.getElem?_set_ne h,
    ← List.getD_eq_getElem?_getD]

theorem list_getD_mem {α : Type} (l : List α) (d : α) (i : Nat)
    (h : i < l.length) : l.getD i d ∈ l := by
  rw [List.getD_eq_getElem?_getD, List.getElem?_eq_getElem h]
  exact List.getElem_mem h

theorem u32_limit_pos : 0 < U32_LIMIT := by norm_num [U32_LIMIT]

theorem exclusive_access_of_unborrowed {α : Type} (c : UPSafeCell α)
    (h : c.borrowed = false) : c.exclusive_access = some c.value := by
  simp [UPSafeCell.exclusive_access, h]

theorem add_syscall_times_inv (t : TotalTasks) (cur id : Nat) (t2 : TotalTasks)
    (h : t.add_syscall_times cur id = .ok t2) :
    t.inner.borrowed = false ∧ cur < t.inner.value.length ∧
    id < (t.inner.value.getD cur emptyStatBlock).call_time.length ∧
    t2 = ⟨⟨t.inner.value.set cur
      { t.inner.value.getD cur emptyStatBlock with
        call_time := (t.inner.value.getD cur emptyStatBlock).call_time.set id
          (((t.inner.value.getD cur emptyStatBlock).call_time.getD id 0 + 1)
            % U32_LIMIT) }, false⟩⟩ := by
  unfold TotalTasks.add_syscall_times at h
  cases hacc : t.inner.exclusive_access with
  | none => rw [hacc] at h; exact Except.noConfusion h
  | some tasks =>
    rw [hacc] at h
    have hb : t.inner.borrowed = false := by
      unfold UPSafeCell.exclusive_access at hacc
      cases hbv : t.inner.borrowed
      · rfl
      · rw [hbv] at hacc; simp at hacc
    have htasks : tasks = t.inner.value := by
      unfold UPSafeCell.exclusive_access at hacc
      rw [hb] at hacc
      simp at hacc
      exact hacc.symm
    subst htasks
    dsimp only at h
    by_cases hc : cur < t.inner.value.length
    · rw [if_pos hc] at h
      cases hadd : (t.inner.value.getD cur emptyStatBlock).add_syscall_times id with
      | none => rw [hadd] at h; exact Except.noConfusion h
      | some b =>
        rw [hadd] at h
        unfold TaskStatBlock.add_syscall_times at hadd
        by_cases hi : id < (t.inner.value.getD cur emptyStatBlock).call_time.length
        · rw [if_pos hi] at hadd
          injection hadd with hadd
          subst hadd
          injection h with h
          subst h
          exact ⟨hb, hc, hi, rfl⟩
        · rw [if_neg hi] at hadd
          exact Option.noConfusion hadd
    · rw [if_neg hc] at h
      exact Except.noConfusion h

theorem add_syscall_times_ok (t : TotalTasks) (cur id : Nat) (h_wf : t.wf)
    (hcur : cur < MAX_APP_NUM) (hid : id < MAX_SYSCALL_NUM) :
    ∃ t2, t.add_syscall_times cur id = .ok t2 := by
  obtain ⟨hb, hlen, hblocks⟩ := h_wf
  have hc : cur < t.inner.value.length := by rw [hlen]; exact hcur
  have hblen := (hblocks _ (list_getD_mem t.inner.value emptyStatBlock cur hc)).1
  have hi : id < (t.inner.value.getD cur emptyStatBlock).call_time.length := by
    rw [hblen]; exact hid
  refine ⟨⟨⟨t.inner.value.set cur
    { t.inner.value.getD cur emptyStatBlock with
      call_time := (t.inner.value.getD cur emptyStatBlock).call_time.set id
        (((t.inner.value.getD cur emptyStatBlock).call_time.getD id 0 + 1)
          % U32_LIMIT) }, false⟩⟩, ?_⟩
  unfold TotalTasks.add_syscall_times
  rw [exclusive_access_of_unborrowed _ hb]
  dsimp only
  rw [if_pos hc]
  unfold TaskStatBlock.add_syscall_times
  rw [if_pos hi]

theorem add_ok_counter_self (t : TotalTasks) (cur id : Nat) (t2 : TotalTasks)
    (h : t.add_syscall_times cur id = .ok t2) :
    t2.counter cur id = (t.counter cur id + 1) % U32_LIMIT := by
  obtain ⟨-, hc, hi, rfl⟩ := add_syscall_times_inv t cur id t2 h
  unfold TotalTasks.counter
  dsimp only
  rw [list_getD_set_self _ _ _ _ hc]
  exact list_getD_set_self _ _ _ _ hi

theorem add_ok_counter_other (t : TotalTasks) (cur id : Nat) (t2 : TotalTasks)
    (h : t.add_syscall_times cur id = .ok t2) (j : Nat) (hj : j ≠ id) :
    t2.counter cur j = t.counter cur j := by
  obtain ⟨-, hc, hi, rfl⟩ := add_syscall_times_inv t cur id t2 h
  unfold TotalTasks.counter
  dsimp only
  rw [list_getD_set_self _ _ _ _ hc]
  exact list_getD_set_ne _ _ _ (fun he => hj he.symm)

theorem add_ok_frame (t : TotalTasks) (cur id : Nat) (t2 : TotalTasks)
    (h : t.add_syscall_times cur id = .ok t2) (s : Nat) (hs : s ≠ cur) :
    t2.inner.value[s]? = t.inner.value[s]? := by
  obtain ⟨-, hc, hi, rfl⟩ := add_syscall_times_inv t cur id t2 h
  exact List.getElem?_set_ne (fun he => hs he.symm)

theorem add_ok_startOf (t : TotalTasks) (cur id : Nat) (t2 : TotalTasks)
    (h : t.add_syscall_times cur id = .ok t2) (s : Nat) :
    t2.startOf s = t.startOf s := by
  obtain ⟨-, hc, hi, rfl⟩ := add_syscall_times_inv t cur id t2 h
  unfold TotalTasks.startOf
  dsimp only
  by_cases hs : s = cur
  · subst hs
    rw [list_getD_set_self _ _ _ _ hc]
  · rw [list_getD_set_ne _ _ _ (fun he => hs he.symm)]

theorem add_ok_wf (t : TotalTasks) (cur id : Nat) (t2 : TotalTasks)
    (h_wf : t.wf) (h : t.add_syscall_times cur id = .ok t2) : t2.wf := by
  obtain ⟨hb, hlen, hblocks⟩ := h_wf
  obtain ⟨-, hc, hi, rfl⟩ := add_syscall_times_inv t cur id t2 h
  refine ⟨rfl, ?_, ?_⟩
  · dsimp only
    rw [List.length_set]
    exact hlen
  · intro b hbmem
    dsimp only at hbmem
    rcases List.mem_or_eq_of_mem_set hbmem with hbin | rfl
    · exact hblocks _ hbin
    · refine ⟨?_, ?_⟩
      · dsimp only
        rw [List.length_set]
        exact (hblocks _ (list_getD_mem _ _ _ hc)).1
      · intro c hcmem
        dsimp only at hcmem
        rcases List.mem_or_eq_of_mem_set hcmem with hcin | rfl
        · exact (hblocks _ (list_getD_mem _ _ _ hc)).2 _ hcin
        · exact Nat.mod_lt _ u32_limit_pos

theorem counter_lt_u32 (t : TotalTasks) (cur id : Nat) (h_wf : t.wf)
    (hcur : cur < MAX_APP_NUM) (hid : id < MAX_SYSCALL_NUM) :
    t.counter cur id < U32_LIMIT := by
  obtain ⟨hb, hlen, hblocks⟩ := h_wf
  have hc : cur < t.inner.value.length := by rw [hlen]; exact hcur
  obtain ⟨hblen, hvals⟩ := hblocks _ (list_getD_mem t.inner.value emptyStatBlock cur hc)
  have hi : id < (t.inner.value.getD cur emptyStatBlock).call_time.length := by
    rw [hblen]; exact hid
  exact hvals _ (list_getD_mem _ _ _ hi)

theorem get_syscall_times_eq_counter (t : TotalTasks) (cur id : Nat) (h_wf : t.wf)
    (hcur : cur < MAX_APP_NUM) (hid : id < MAX_SYSCALL_NUM) :
    t.get_syscall_times cur id = .ok (t.counter cur id) := by
  obtain ⟨hb, hlen, hblocks⟩ := h_wf
  have hc : cur < t.inner.value.length := by rw [hlen]; exact hcur
  have hblen := (hblocks _ (list_getD_mem t.inner.value emptyStatBlock cur hc)).1
  have hi : id < (t.inner.value.getD cur emptyStatBlock).call_time.length := by
    rw [hblen]; exact hid
  unfold TotalTasks.get_syscall_times
  rw [exclusive_access_of_unborrowed _ hb]
  dsimp only
  rw [if_pos hc]
  unfold TaskStatBlock.get_syscall_times
  rw [if_pos hi]
  rfl

theorem get_total_syscall_times_eq (t : TotalTasks) (cur : Nat) (h_wf : t.wf)
    (hcur : cur < MAX_APP_NUM) :
    t.get_total_syscall_times cur =
      .ok ((t.inner.value.getD cur emptyStatBlock).call_time) := by
  obtain ⟨hb, hlen, hblocks⟩ := h_wf
  have hc : cur < t.inner.value.length := by rw [hlen]; exact hcur
  unfold TotalTasks.get_total_syscall_times
  rw [exclusive_access_of_unborrowed _ hb]
  dsimp only
  rw [if_pos hc]
  rfl

theorem get_current_task_run_time_eq (t : TotalTasks) (cur now : Nat) (h_wf : t.wf)
    (hcur : cur < MAX_APP_NUM) :
    t.get_current_task_run_time cur now = .ok (now - t.startOf cur) := by
  obtain ⟨hb, hlen, hblocks⟩ := h_wf
  have hc : cur < t.inner.value.length := by rw [hlen]; exact hcur
  unfold TotalTasks.get_current_task_run_time
  rw [exclusive_access_of_unborrowed _ hb]
  dsimp only
  rw [if_pos hc]
  rfl

theorem start_current_task_time_inv (t : TotalTasks) (cur now : Nat)
    (t2 : TotalTasks) (h : t.start_current_task_time cur now = .ok t2) :
    t.inner.borrowed = false ∧ cur < t.inner.value.length ∧
    t2 = ⟨⟨t.inner.value.set cur
      ((t.inner.value.getD cur emptyStatBlock).start_task_time now), false⟩⟩ := by
  unfold TotalTasks.start_current_task_time at h
  cases hacc : t.inner.exclusive_access with
  | none => rw [hacc] at h; exact Except.noConfusion h
  | some tasks =>
    rw [hacc] at h
    have hb : t.inner.borrowed = false := by
      unfold UPSafeCell.exclusive_access at hacc
      cases hbv : t.inner.borrowed
      · rfl
      · rw [hbv] at hacc; simp at hacc
    have htasks : tasks = t.inner.value := by
      unfold UPSafeCell.exclusive_access at hacc
      rw [hb] at hacc
      simp at hacc
      exact hacc.symm
    subst htasks
    dsimp only at h
    by_cases hc : cur < t.inner.value.length
    · rw [if_pos hc] at h
      injection h with h
      subst h
      exact ⟨hb, hc, rfl⟩
    · rw [if_neg hc] at h
      exact Except.noConfusion h

theorem start_current_task_time_ok (t : TotalTasks) (cur now : Nat) (h_wf : t.wf)
    (hcur : cur < MAX_APP_NUM) :
    ∃ t2, t.start_current_task_time cur now = .ok t2 := by
  obtain ⟨hb, hlen, hblocks⟩ := h_wf
  have hc : cur < t.inner.value.length := by rw [hlen]; exact hcur
  refine ⟨⟨⟨t.inner.value.set cur
    ((t.inner.value.getD cur emptyStatBlock).start_task_time now), false⟩⟩, ?_⟩
  unfold TotalTasks.start_current_task_time
  rw [exclusive_access_of_unborrowed _ hb]
  dsimp only
  rw [if_pos hc]

theorem start_ok_startOf_self (t : TotalTasks) (cur now : Nat) (t2 : TotalTasks)
    (h : t.start_current_task_time cur now = .ok t2) : t2.startOf cur = now := by
  obtain ⟨-, hc, rfl⟩ := start_current_task_time_inv t cur now t2 h
  unfold TotalTasks.startOf
  dsimp only
  rw [list_getD_set_self _ _ _ _ hc]
  rfl

theorem start_ok_startOf_other (t : TotalTasks) (cur now : Nat) (t2 : TotalTasks)
    (h : t.start_current_task_time cur now = .ok t2) (s : Nat) (hs : s ≠ cur) :
    t2.startOf s = t.startOf s := by
  obtain ⟨-, hc, rfl⟩ := start_current_task_time_inv t cur now t2 h
  unfold TotalTasks.startOf
  dsimp only
  rw [list_getD_set_ne _ _ _ (fun he => hs he.symm)]

theorem start_ok_counters (t : TotalTasks) (cur now : Nat) (t2 : TotalTasks)
    (h : t.start_current_task_time cur now = .ok t2) (s j : Nat) :
    t2.counter s j = t.counter s j := by
  obtain ⟨-, hc, rfl⟩ := start_current_task_time_inv t cur now t2 h
  unfold TotalTasks.counter
  dsimp only
  by_cases hs : s = cur
  · subst hs
    rw [list_getD_set_self _ _ _ _ hc]
    rfl
  · rw [list_getD_set_ne _ _ _ (fun he => hs he.symm)]

theorem start_ok_frame (t : TotalTasks) (cur now : Nat) (t2 : TotalTasks)
    (h : t.start_current_task_time cur now = .ok t2) (s : Nat) (hs : s ≠ cur) :
    t2.inner.value[s]? = t.inner.value[s]? := by
  obtain ⟨-, hc, rfl⟩ := start_current_task_time_inv t cur now t2 h
  exact List.getElem?_set_ne (fun he => hs he.symm)

theorem start_ok_wf (t : TotalTasks) (cur now : Nat) (t2 : TotalTasks)
    (h_wf : t.wf) (h : t.start_current_task_time cur now = .ok t2) : t2.wf := by
  obtain ⟨hb, hlen, hblocks⟩ := h_wf
  obtain ⟨-, hc, rfl⟩ := start_current_task_time_inv t cur now t2 h
  refine ⟨rfl, ?_, ?_⟩
  · dsimp only
    rw [List.length_set]
    exact hlen
  · intro b hbmem
    dsimp only at hbmem
    rcases List.mem_or_eq_of_mem_set hbmem with hbin | rfl
    · exact hblocks _ hbin
    · obtain ⟨h1, h2⟩ := hblocks _ (list_getD_mem t.inner.value emptyStatBlock cur hc)
      exact ⟨h1, h2⟩

theorem replicate_getD {α : Type} (n i : Nat) (a d : α) :
    (List.replicate n a).getD i d = if i < n then a else d := by
  rw [List.getD_eq_getElem?_getD, List.getElem?_replicate]
  split <;> rfl

theorem TOTAL_TASKS_wf : TOTAL_TASKS.wf := by
  unfold TotalTasks.wf TOTAL_TASKS
  dsimp only
  refine ⟨rfl, List.length_replicate _ _, ?_⟩
  intro b hb
  rw [List.mem_replicate] at hb
  obtain ⟨-, rfl⟩ := hb
  refine ⟨List.length_replicate _ _, ?_⟩
  intro c hc
  rw [List.mem_replicate] at hc
  obtain ⟨-, rfl⟩ := hc
  exact u32_limit_pos

theorem TOTAL_TASKS_counter (cur id : Nat) : TOTAL_TASKS.counter cur id = 0 := by
  unfold TotalTasks.counter TOTAL_TASKS
  dsimp only
  rw [replicate_getD]
  by_cases hcur : cur < MAX_APP_NUM
  · rw [if_pos hcur]
    dsimp only
    rw [replicate_getD]
    split <;> rfl
  · rw [if_neg hcur]
    unfold emptyStatBlock
    dsimp only
    rw [List.getD_eq_getElem?_getD]
    simp

theorem recognized_lt_max (id : Nat) (hid : id ∈ recognized_ids) :
    id < MAX_SYSCALL_NUM := by
  simp only [recognized_ids, List.mem_cons, List.not_mem_nil, or_false] at hid
  rcases hid with rfl | rfl | rfl | rfl | rfl <;> decide

theorem syscall_of_add_error (t : TotalTasks) (cur id : Nat)
    (args : Nat × Nat × Nat) (r : FatalReason)
    (h : t.add_syscall_times cur id = .error r) :
    syscall t cur id args = .fatal r t := by
  unfold syscall
  rw [h]

theorem syscall_recognized_ok (t : TotalTasks) (cur id : Nat)
    (args : Nat × Nat × Nat) (hid : id ∈ recognized_ids) (t2 : TotalTasks)
    (h : t.add_syscall_times cur id = .ok t2) :
    ∃ c, syscall t cur id args = .ok t2 c := by
  unfold syscall
  rw [h]
  dsimp only
  simp only [recognized_ids, List.mem_cons, List.not_mem_nil, or_false] at hid
  rcases hid with rfl | rfl | rfl | rfl | rfl
  · exact ⟨.sys_write args.1 args.2.1 args.2.2, by rw [if_pos rfl]⟩
  · refine ⟨.sys_exit (usize_as_i32 args.1), ?_⟩
    rw [if_neg (by decide), if_pos rfl]
  · refine ⟨.sys_yield, ?_⟩
    rw [if_neg (by decide), if_neg (by decide), if_pos rfl]
  · refine ⟨.sys_get_time args.1 args.2.1, ?_⟩
    rw [if_neg (by decide), if_neg (by decide), if_neg (by decide), if_pos rfl]
  · refine ⟨.sys_task_info args.1, ?_⟩
    rw [if_neg (by decide), if_neg (by decide), if_neg (by decide),
      if_neg (by decide), if_pos rfl]

theorem syscall_unrecognized_of_add_ok (t : TotalTasks) (cur id : Nat)
    (args : Nat × Nat × Nat) (hid : id ∉ recognized_ids) (t2 : TotalTasks)
    (h : t.add_syscall_times cur id = .ok t2) :
    syscall t cur id args = .fatal .unsupportedSyscall t2 := by
  have h64 : id ≠ SYSCALL_WRITE := fun he => hid (by rw [he]; decide)
  have h93 : id ≠ SYSCALL_EXIT := fun he => hid (by rw [he]; decide)
  have h124 : id ≠ SYSCALL_YIELD := fun he => hid (by rw [he]; decide)
  have h169 : id ≠ SYSCALL_GET_TIME := fun he => hid (by rw [he]; decide)
  have h410 : id ≠ SYSCALL_TASK_INFO := fun he => hid (by rw [he]; decide)
  unfold syscall
  rw [h]
  dsimp only
  rw [if_neg h64, if_neg h93, if_neg h124, if_neg h169, if_neg h410]

theorem syscall_ok_inv (t : TotalTasks) (cur id : Nat) (args : Nat × Nat × Nat)
    (t2 : TotalTasks) (c : HandlerCall) (h : syscall t cur id args = .ok t2 c) :
    t.add_syscall_times cur id = .ok t2 := by
  unfold syscall at h
  cases hadd : t.add_syscall_times cur id with
  | error r => rw [hadd] at h; exact SyscallOutcome.noConfusion h
  | ok t3 =>
    rw [hadd] at h
    dsimp only at h
    split_ifs at h <;> (injection h with h1 h2; rw [h1])

theorem syscallN_spec (cur id : Nat) (args : Nat × Nat × Nat)
    (hid : id ∈ recognized_ids) (hcur : cur < MAX_APP_NUM) :
    ∀ (n : Nat) (t : TotalTasks), t.wf →
    ∃ t2, syscallN t cur id args n = .ok t2 ∧ t2.wf ∧
      t2.counter cur id = (t.counter cur id + n) % U32_LIMIT ∧
      (∀ j, j ≠ id → t2.counter cur j = t.counter cur j) ∧
      (∀ s, s ≠ cur → t2.inner.value[s]? = t.inner.value[s]?) := by
  intro n
  induction n with
  | zero =>
    intro t h_wf
    refine ⟨t, rfl, h_wf, ?_, fun j _ => rfl, fun s _ => rfl⟩
    rw [Nat.add_zero,
      Nat.mod_eq_of_lt (counter_lt_u32 t cur id h_wf hcur (recognized_lt_max id hid))]
  | succ n ih =>
    intro t h_wf
    obtain ⟨t1, hadd⟩ :=
      add_syscall_times_ok t cur id h_wf hcur (recognized_lt_max id hid)
    obtain ⟨c, hsys⟩ := syscall_recognized_ok t cur id args hid t1 hadd
    obtain ⟨t2, hN, h_wf2, hcnt, hoth, hfr⟩ := ih t1 (add_ok_wf t cur id t1 h_wf hadd)
    refine ⟨t2, ?_, h_wf2, ?_, ?_, ?_⟩
    · unfold syscallN
      rw [hsys]
      exact hN
    · rw [hcnt, add_ok_counter_self t cur id t1 hadd, Nat.mod_add_mod]
      congr 1
      omega
    · intro j hj
      rw [hoth j hj, add_ok_counter_other t cur id t1 hadd j hj]
    · intro s hs
      rw [hfr s hs, add_ok_frame t cur id t1 hadd s hs]

theorem add_syscall_times_oob (t : TotalTasks) (cur id : Nat) (h_wf : t.wf)
    (hcur : cur < MAX_APP_NUM) (hid : MAX_SYSCALL_NUM ≤ id) :
    t.add_syscall_times cur id = .error .indexOutOfBounds := by
  obtain ⟨hb, hlen, hblocks⟩ := h_wf
  have hc : cur < t.inner.value.length := by rw [hlen]; exact hcur
  have hblen := (hblocks _ (list_getD_mem t.inner.value emptyStatBlock cur hc)).1
  have hi : ¬ id < (t.inner.value.getD cur emptyStatBlock).call_time.length := by
    rw [hblen]; omega
  unfold TotalTasks.add_syscall_times
  rw [exclusive_access_of_unborrowed _ hb]
  dsimp only
  rw [if_pos hc]
  unfold TaskStatBlock.add_syscall_times
  rw [if_neg hi]

theorem exclusive_access_of_borrowed {α : Type} (c : UPSafeCell α)
    (h : c.borrowed = true) : c.exclusive_access = none := by
  simp [UPSafeCell.exclusive_access, h]

/-! ## Claim theorems -/

/-- C1: every call to the dispatcher `syscall` records the invocation via
`add_syscall_times` exactly once, and this recording happens before any
handler logic runs: the statistics store in the outcome is exactly the
result of the single recording applied to the pre-dispatch store, whether
the routed handler is reached (`ok`, including exit, which never returns
to the caller), the identifier is unsupported, or the recording attempt
itself hits a fatal path. -/
theorem syscall_records_exactly_once (t : TotalTasks) (cur id : Nat)
    (args : Nat × Nat × Nat) :
    (∃ r, t.add_syscall_times cur id = .error r ∧
      syscall t cur id args = .fatal r t) ∨
    (∃ t2, t.add_syscall_times cur id = .ok t2 ∧
      ((∃ c, syscall t cur id args = .ok t2 c) ∨
        syscall t cur id args = .fatal .unsupportedSyscall t2)) := by
  cases hadd : t.add_syscall_times cur id with
  | error r => exact .inl ⟨r, rfl, syscall_of_add_error t cur id args r hadd⟩
  | ok t2 =>
    refine .inr ⟨t2, rfl, ?_⟩
    by_cases hid : id ∈ recognized_ids
    · exact .inl (syscall_recognized_ok t cur id args hid t2 hadd)
    · exact .inr (syscall_unrecognized_of_add_ok t cur id args hid t2 hadd)

/-- C2: dispatching any identifier outside the recognized set
{64, 93, 124, 169, 410} deterministically reaches a fatal path (kernel
panic) and never silently returns a handler result. -/
theorem syscall_unrecognized_id_fatal (t : TotalTasks) (cur id : Nat)
    (args : Nat × Nat × Nat) (hid : id ∉ recognized_ids) :
    (∃ r t2, syscall t cur id args = .fatal r t2) ∧
    ∀ t2 c, syscall t cur id args ≠ .ok t2 c := by
  have main : ∃ r t2, syscall t cur id args = .fatal r t2 := by
    cases hadd : t.add_syscall_times cur id with
    | error r => exact ⟨r, t, syscall_of_add_error t cur id args r hadd⟩
    | ok t2 =>
      exact ⟨.unsupportedSyscall, t2,
        syscall_unrecognized_of_add_ok t cur id args hid t2 hadd⟩
  refine ⟨main, ?_⟩
  obtain ⟨r, t2, heq⟩ := main
  intro t3 c hc
  rw [heq] at hc
  exact SyscallOutcome.noConfusion hc

/-- Witness for C2 at the spec's example identifier 9999 on the initial
store. -/
theorem syscall_unrecognized_id_fatal_witness :
    (9999 : Nat) ∉ recognized_ids ∧
    ((∃ r t2, syscall TOTAL_TASKS 0 9999 (0, 0, 0) = .fatal r t2) ∧
      ∀ t2 c, syscall TOTAL_TASKS 0 9999 (0, 0, 0) ≠ .ok t2 c) :=
  ⟨by decide, syscall_unrecognized_id_fatal TOTAL_TASKS 0 9999 (0, 0, 0) (by decide)⟩

/-- C4: the dispatcher records before matching, so for an unrecognized
identifier at or above `MAX_SYSCALL_NUM` the fatal path is the
out-of-bounds indexing inside `add_syscall_times` (the store is unchanged
at the panic), while for an unrecognized identifier below
`MAX_SYSCALL_NUM` the counter at that index is incremented before the
dispatcher's own unsupported-syscall panic fires. -/
theorem record_before_match_fatal_paths (t : TotalTasks) (cur id : Nat)
    (args : Nat × Nat × Nat) (h_wf : t.wf) (hcur : cur < MAX_APP_NUM)
    (hid : id ∉ recognized_ids) :
    (MAX_SYSCALL_NUM ≤ id →
      syscall t cur id args = .fatal .indexOutOfBounds t) ∧
    (id < MAX_SYSCALL_NUM →
      ∃ t2, syscall t cur id args = .fatal .unsupportedSyscall t2 ∧
        t2.counter cur id = (t.counter cur id + 1) % U32_LIMIT) := by
  constructor
  · intro hge
    exact syscall_of_add_error t cur id args _
      (add_syscall_times_oob t cur id h_wf hcur hge)
  · intro hlt
    obtain ⟨t2, hadd⟩ := add_syscall_times_ok t cur id h_wf hcur hlt
    exact ⟨t2, syscall_unrecognized_of_add_ok t cur id args hid t2 hadd,
      add_ok_counter_self t cur id t2 hadd⟩

/-- Witness for C4: identifier 9999 (out of counter bounds) panics with the
store untouched, and identifier 450 (in bounds but unrecognized) increments
its counter before the unsupported-syscall panic. -/
theorem record_before_match_fatal_paths_witness :
    TOTAL_TASKS.wf ∧ 0 < MAX_APP_NUM ∧
    (9999 : Nat) ∉ recognized_ids ∧ (450 : Nat) ∉ recognized_ids ∧
    syscall TOTAL_TASKS 0 9999 (0, 0, 0) = .fatal .indexOutOfBounds TOTAL_TASKS ∧
    ∃ t2, syscall TOTAL_TASKS 0 450 (0, 0, 0) = .fatal .unsupportedSyscall t2 ∧
      t2.counter 0 450 = (TOTAL_TASKS.counter 0 450 + 1) % U32_LIMIT :=
  ⟨TOTAL_TASKS_wf, by decide, by decide, by decide,
    (record_before_match_fatal_paths TOTAL_TASKS 0 9999 (0, 0, 0)
      TOTAL_TASKS_wf (by decide) (by decide)).1 (by decide),
    (record_before_match_fatal_paths TOTAL_TASKS 0 450 (0, 0, 0)
      TOTAL_TASKS_wf (by decide) (by decide)).2 (by decide)⟩

/-- C9 (spec-modelled `UPSafeCell`): acquiring the Statistics Store's
exclusive-access guard while another acquisition from the same logical
thread of control is outstanding is immediately fatal — no blocking, no
reentrant acquisition — and every accessor operation on a store whose
guard is outstanding takes the reentrancy fatal path. -/
theorem exclusive_access_reentrancy_fatal {α : Type} (c : UPSafeCell α)
    (t : TotalTasks) (cur id now : Nat) (args : Nat × Nat × Nat)
    (hb : t.inner.borrowed = true) :
    (UPSafeCell.exclusive_access (UPSafeCell.acquire c) = none) ∧
    t.add_syscall_times cur id = .error .reentrantAccess ∧
    t.get_syscall_times cur id = .error .reentrantAccess ∧
    t.get_total_syscall_times cur = .error .reentrantAccess ∧
    t.start_current_task_time cur now = .error .reentrantAccess ∧
    t.get_current_task_run_time cur now = .error .reentrantAccess ∧
    syscall t cur id args = .fatal .reentrantAccess t := by
  have hacc : t.inner.exclusive_access = none := exclusive_access_of_borrowed _ hb
  have hadd : t.add_syscall_times cur id = .error .reentrantAccess := by
    unfold TotalTasks.add_syscall_times
    rw [hacc]
  refine ⟨?_, hadd, ?_, ?_, ?_, ?_, ?_⟩
  · simp [UPSafeCell.exclusive_access, UPSafeCell.acquire]
  · unfold TotalTasks.get_syscall_times
    rw [hacc]
  · unfold TotalTasks.get_total_syscall_times
    rw [hacc]
  · unfold TotalTasks.start_current_task_time
    rw [hacc]
  · unfold TotalTasks.get_current_task_run_time
    rw [hacc]
  · exact syscall_of_add_error t cur id args _ hadd

/-- Witness for C9 on a store with one outstanding acquisition. -/
theorem exclusive_access_reentrancy_fatal_witness :
    (TotalTasks.mk ⟨[], true⟩).inner.borrowed = true ∧
    (UPSafeCell.exclusive_access (UPSafeCell.acquire (UPSafeCell.mk (0 : Nat) false)) = none) ∧
    (TotalTasks.mk ⟨[], true⟩).add_syscall_times 0 64 = .error .reentrantAccess ∧
    (TotalTasks.mk ⟨[], true⟩).get_syscall_times 0 64 = .error .reentrantAccess ∧
    (TotalTasks.mk ⟨[], true⟩).get_total_syscall_times 0 = .error .reentrantAccess ∧
    (TotalTasks.mk ⟨[], true⟩).start_current_task_time 0 0 = .error .reentrantAccess ∧
    (TotalTasks.mk ⟨[], true⟩).get_current_task_run_time 0 0 = .error .reentrantAccess ∧
    syscall (TotalTasks.mk ⟨[], true⟩) 0 64 (0, 0, 0) =
      .fatal .reentrantAccess (TotalTasks.mk ⟨[], true⟩) :=
  ⟨rfl, (exclusive_access_reentrancy_fatal (UPSafeCell.mk (0 : Nat) false)
    (TotalTasks.mk ⟨[], true⟩) 0 64 0 (0, 0, 0) rfl).1,
    (exclusive_access_reentrancy_fatal (UPSafeCell.mk (0 : Nat) false)
      (TotalTasks.mk ⟨[], true⟩) 0 64 0 (0, 0, 0) rfl).2⟩

/-- C10: each counter is a `u32` incremented without a checked add: one
recording turns value `c` into `(c + 1) % 2^32`, so a counter already at
`u32::MAX = 2^32 - 1` wraps to `0` (release-build semantics; a debug
build would panic instead) — so `syscall_count(i) = n` after `n`
recordings can hold only for `n` below `2^32`. -/
theorem counter_u32_wrap (b : TaskStatBlock) (i : Nat)
    (h : i < b.call_time.length) :
    ∃ b2, b.add_syscall_times i = some b2 ∧
      b2.call_time.getD i 0 = (b.call_time.getD i 0 + 1) % U32_LIMIT ∧
      (b.call_time.getD i 0 = U32_LIMIT - 1 → b2.call_time.getD i 0 = 0) := by
  refine ⟨TaskStatBlock.mk
    (b.call_time.set i ((b.call_time.getD i 0 + 1) % U32_LIMIT))
    b.start_time, ?_, ?_, ?_⟩
  · unfold TaskStatBlock.add_syscall_times
    rw [if_pos h]
  · dsimp only
    exact list_getD_set_self _ _ _ _ h
  · intro hmax
    dsimp only
    rw [list_getD_set_self _ _ _ _ h, hmax,
      Nat.sub_add_cancel (Nat.one_le_iff_ne_zero.mpr (Nat.pos_iff_ne_zero.mp u32_limit_pos)),
      Nat.mod_self]

/-- Witness for C10: a counter at `u32::MAX` wraps to 0 on the next
recording. -/
theorem counter_u32_wrap_witness :
    0 < (TaskStatBlock.mk [U32_LIMIT - 1] 7).call_time.length ∧
    ∃ b2, (TaskStatBlock.mk [U32_LIMIT - 1] 7).add_syscall_times 0 = some b2 ∧
      b2.call_time.getD 0 0 =
        ((TaskStatBlock.mk [U32_LIMIT - 1] 7).call_time.getD 0 0 + 1) % U32_LIMIT ∧
      ((TaskStatBlock.mk [U32_LIMIT - 1] 7).call_time.getD 0 0 = U32_LIMIT - 1 →
        b2.call_time.getD 0 0 = 0) :=
  ⟨by decide, counter_u32_wrap (TaskStatBlock.mk [U32_LIMIT - 1] 7) 0 (by decide)⟩

/-- C3 (amended): for every recognized identifier `i` and every sequence
of `n < 2^32` dispatches with identifier `i` from the initial store while
a given task slot is current, the task's `syscall_count(i)` equals `n`
afterward and every other identifier's counter in that task's record is
unchanged. (The bound `n < 2^32` is forced by the `u32` counter wrapping,
see the counterexample at `n = 2^32`.) -/
theorem syscall_count_eq_n_of_lt_u32 (cur id n : Nat) (args : Nat × Nat × Nat)
    (hid : id ∈ recognized_ids) (hcur : cur < MAX_APP_NUM) (hn : n < U32_LIMIT) :
    ∃ t2, syscallN TOTAL_TASKS cur id args n = .ok t2 ∧
      t2.get_syscall_times cur id = .ok n ∧
      ∀ j, j < MAX_SYSCALL_NUM → j ≠ id →
        t2.get_syscall_times cur j = TOTAL_TASKS.get_syscall_times cur j := by
  obtain ⟨t2, hN, h_wf2, hcnt, hoth, -⟩ :=
    syscallN_spec cur id args hid hcur n TOTAL_TASKS TOTAL_TASKS_wf
  have hidlt := recognized_lt_max id hid
  refine ⟨t2, hN, ?_, ?_⟩
  · rw [get_syscall_times_eq_counter t2 cur id h_wf2 hcur hidlt, hcnt,
      TOTAL_TASKS_counter, Nat.zero_add, Nat.mod_eq_of_lt hn]
  · intro j hj hne
    rw [get_syscall_times_eq_counter t2 cur j h_wf2 hcur hj,
      get_syscall_times_eq_counter TOTAL_TASKS cur j TOTAL_TASKS_wf hcur hj,
      hoth j hne]

/-- Witness for C3 (amended): three yield dispatches in slot 0 give
count 3 there and leave every other identifier's counter unchanged. -/
theorem syscall_count_eq_n_witness :
    SYSCALL_YIELD ∈ recognized_ids ∧ 0 < MAX_APP_NUM ∧ 3 < U32_LIMIT ∧
    ∃ t2, syscallN TOTAL_TASKS 0 SYSCALL_YIELD (0, 0, 0) 3 = .ok t2 ∧
      t2.get_syscall_times 0 SYSCALL_YIELD = .ok 3 ∧
      ∀ j, j < MAX_SYSCALL_NUM → j ≠ SYSCALL_YIELD →
        t2.get_syscall_times 0 j = TOTAL_TASKS.get_syscall_times 0 j :=
  ⟨by decide, by decide, by decide,
    syscall_count_eq_n_of_lt_u32 0 SYSCALL_YIELD 3 (0, 0, 0)
      (by decide) (by decide) (by decide)⟩

/-- Counterexample to C3 as stated (no bound on `n`): after exactly
`2^32` yield dispatches from the initial store the task's yield counter
reads 0, not `2^32` — the `u32` counter has wrapped. -/
theorem syscall_count_overflow_counterexample :
    ∃ t2, syscallN TOTAL_TASKS 0 SYSCALL_YIELD (0, 0, 0) U32_LIMIT = .ok t2 ∧
      t2.get_syscall_times 0 SYSCALL_YIELD = .ok 0 ∧ (0 : Nat) ≠ U32_LIMIT := by
  obtain ⟨t2, hN, h_wf2, hcnt, -, -⟩ :=
    syscallN_spec 0 SYSCALL_YIELD (0, 0, 0) (by decide) (by decide)
      U32_LIMIT TOTAL_TASKS TOTAL_TASKS_wf
  refine ⟨t2, hN, ?_, ?_⟩
  · rw [get_syscall_times_eq_counter t2 0 SYSCALL_YIELD h_wf2 (by decide) (by decide),
      hcnt, TOTAL_TASKS_counter, Nat.zero_add, Nat.mod_self]
  · exact Ne.symm (Nat.pos_iff_ne_zero.mp u32_limit_pos)

/-- C5: `get_total_syscall_times` returns a copy (snapshot) of the active
task's full counter array: the returned array is a plain value whose
entries agree with the live per-identifier counters, and subsequent
`get_syscall_times` reads re-read the store, so they are unchanged by any
mutation of a previously returned array (the universally quantified
`mutated` value does not occur in the conclusion). -/
theorem get_total_syscall_times_snapshot (t : TotalTasks) (cur : Nat)
    (h_wf : t.wf) (hcur : cur < MAX_APP_NUM) :
    ∃ a, t.get_total_syscall_times cur = .ok a ∧
      ∀ mutated : List Nat, ∀ i, i < MAX_SYSCALL_NUM →
        t.get_syscall_times cur i = .ok (a.getD i 0) := by
  refine ⟨_, get_total_syscall_times_eq t cur h_wf hcur, ?_⟩
  intro mutated i hi
  rw [get_syscall_times_eq_counter t cur i h_wf hcur hi]
  rfl

/-- Witness for C5 on the initial store. -/
theorem get_total_syscall_times_snapshot_witness :
    TOTAL_TASKS.wf ∧ 0 < MAX_APP_NUM ∧
    ∃ a, TOTAL_TASKS.get_total_syscall_times 0 = .ok a ∧
      ∀ mutated : List Nat, ∀ i, i < MAX_SYSCALL_NUM →
        TOTAL_TASKS.get_syscall_times 0 i = .ok (a.getD i 0) :=
  ⟨TOTAL_TASKS_wf, by decide,
    get_total_syscall_times_snapshot TOTAL_TASKS 0 TOTAL_TASKS_wf (by decide)⟩

/-- C6: `get_current_task_run_time` returns `now` minus the active task's
`start_time`; immediately after `start_current_task_time` it returns 0
(which is ≥ 0), and with the time source advanced by `delta` between the
two calls it returns exactly `delta`. -/
theorem start_timer_then_elapsed (t : TotalTasks) (cur now delta : Nat)
    (h_wf : t.wf) (hcur : cur < MAX_APP_NUM) :
    ∃ t2, t.start_current_task_time cur now = .ok t2 ∧
      t2.get_current_task_run_time cur now = .ok 0 ∧
      t2.get_current_task_run_time cur (now + delta) = .ok delta := by
  obtain ⟨t2, hstart⟩ := start_current_task_time_ok t cur now h_wf hcur
  have h_wf2 := start_ok_wf t cur now t2 h_wf hstart
  have hso := start_ok_startOf_self t cur now t2 hstart
  refine ⟨t2, hstart, ?_, ?_⟩
  · rw [get_current_task_run_time_eq t2 cur now h_wf2 hcur, hso, Nat.sub_self]
  · rw [get_current_task_run_time_eq t2 cur _ h_wf2 hcur, hso,
      Nat.add_sub_cancel_left]

/-- Witness for C6: start the timer at 100, read elapsed 0 immediately
and 25 after the clock advances by 25. -/
theorem start_timer_then_elapsed_witness :
    TOTAL_TASKS.wf ∧ 0 < MAX_APP_NUM ∧
    ∃ t2, TOTAL_TASKS.start_current_task_time 0 100 = .ok t2 ∧
      t2.get_current_task_run_time 0 100 = .ok 0 ∧
      t2.get_current_task_run_time 0 (100 + 25) = .ok 25 :=
  ⟨TOTAL_TASKS_wf, by decide,
    start_timer_then_elapsed TOTAL_TASKS 0 100 25 TOTAL_TASKS_wf (by decide)⟩

/-- C7 (amended): across the statistics operations, a recording changes
only the recorded counter and by exactly `+1 (mod 2^32)` — in particular
it never decreases the counter as long as it is below `u32::MAX`, but an
increment at `u32::MAX` wraps to 0 (see the counterexample) — every other
counter is unchanged, recordings never touch `start_time`, and
`start_current_task_time` overwrites (rather than accumulates)
`start_time` while leaving every counter unchanged. -/
theorem counters_monotone_except_wrap (t : TotalTasks) (cur id now : Nat) :
    (∀ t2, t.add_syscall_times cur id = .ok t2 →
      t2.counter cur id = (t.counter cur id + 1) % U32_LIMIT ∧
      (t.counter cur id + 1 < U32_LIMIT →
        t.counter cur id ≤ t2.counter cur id) ∧
      (∀ j, j ≠ id → t2.counter cur j = t.counter cur j) ∧
      (∀ s, t2.startOf s = t.startOf s)) ∧
    (∀ t2, t.start_current_task_time cur now = .ok t2 →
      (∀ s j, t2.counter s j = t.counter s j) ∧
      t2.startOf cur = now ∧
      (∀ s, s ≠ cur → t2.startOf s = t.startOf s)) := by
  constructor
  · intro t2 h
    refine ⟨add_ok_counter_self t cur id t2 h, ?_,
      fun j hj => add_ok_counter_other t cur id t2 h j hj,
      fun s => add_ok_startOf t cur id t2 h s⟩
    intro hlt
    rw [add_ok_counter_self t cur id t2 h, Nat.mod_eq_of_lt hlt]
    exact Nat.le_succ _
  · intro t2 h
    exact ⟨fun s j => start_ok_counters t cur now t2 h s j,
      start_ok_startOf_self t cur now t2 h,
      fun s hs => start_ok_startOf_other t cur now t2 h s hs⟩

/-- Witness for C7 on a small concrete store: recording identifier 1 in
slot 0 takes its counter from 5 to 6, leaves the other counters and every
`start_time` unchanged. -/
theorem counters_monotone_except_wrap_witness :
    sampleTasks.add_syscall_times 0 1 = .ok sampleTasks2 ∧
    (sampleTasks2.counter 0 1 = (sampleTasks.counter 0 1 + 1) % U32_LIMIT ∧
      (sampleTasks.counter 0 1 + 1 < U32_LIMIT →
        sampleTasks.counter 0 1 ≤ sampleTasks2.counter 0 1) ∧
      (∀ j, j ≠ 1 → sampleTasks2.counter 0 j = sampleTasks.counter 0 j) ∧
      (∀ s, sampleTasks2.startOf s = sampleTasks.startOf s)) :=
  ⟨rfl, (counters_monotone_except_wrap sampleTasks 0 1 0).1 sampleTasks2 rfl⟩

/-- Counterexample to C7 as stated (counters never decrease): in the
reachable state after `2^32 - 1` yield dispatches from the initial store
the yield counter reads `2^32 - 1`; one further dispatch of yield —
an increment — makes it read 0, a strict decrease. -/
theorem counter_wrap_decrease_counterexample :
    ∃ t1 t2 c,
      syscallN TOTAL_TASKS 0 SYSCALL_YIELD (0, 0, 0) (U32_LIMIT - 1) = .ok t1 ∧
      syscall t1 0 SYSCALL_YIELD (0, 0, 0) = .ok t2 c ∧
      t1.counter 0 SYSCALL_YIELD = U32_LIMIT - 1 ∧
      t2.counter 0 SYSCALL_YIELD = 0 ∧
      t2.counter 0 SYSCALL_YIELD < t1.counter 0 SYSCALL_YIELD := by
  obtain ⟨t1, hN, h_wf1, hcnt, -, -⟩ :=
    syscallN_spec 0 SYSCALL_YIELD (0, 0, 0) (by decide) (by decide)
      (U32_LIMIT - 1) TOTAL_TASKS TOTAL_TASKS_wf
  have hc1 : t1.counter 0 SYSCALL_YIELD = U32_LIMIT - 1 := by
    rw [hcnt, TOTAL_TASKS_counter, Nat.zero_add,
      Nat.mod_eq_of_lt (Nat.sub_lt u32_limit_pos Nat.one_pos)]
  obtain ⟨t2, hadd⟩ :=
    add_syscall_times_ok t1 0 SYSCALL_YIELD h_wf1 (by decide) (by decide)
  obtain ⟨c, hsys⟩ :=
    syscall_recognized_ok t1 0 SYSCALL_YIELD (0, 0, 0) (by decide) t2 hadd
  have hc2 : t2.counter 0 SYSCALL_YIELD = 0 := by
    rw [add_ok_counter_self t1 0 SYSCALL_YIELD t2 hadd, hc1,
      Nat.sub_add_cancel u32_limit_pos, Nat.mod_self]
  refine ⟨t1, t2, c, hN, hsys, hc1, hc2, ?_⟩
  rw [hc1, hc2]
  norm_num [U32_LIMIT]

/-- C8: every state-changing statistics operation performed while slot
`cur` is current leaves the record of every other slot `s` untouched, so
the counters of tasks in different slots are entirely independent. -/
theorem stats_ops_frame_other_slots (t : TotalTasks) (cur s id now : Nat)
    (args : Nat × Nat × Nat) (hs : s ≠ cur) :
    (∀ t2, t.add_syscall_times cur id = .ok t2 →
      t2.inner.value[s]? = t.inner.value[s]?) ∧
    (∀ t2, t.start_current_task_time cur now = .ok t2 →
      t2.inner.value[s]? = t.inner.value[s]?) ∧
    (∀ t2 c, syscall t cur id args = .ok t2 c →
      t2.inner.value[s]? = t.inner.value[s]?) := by
  refine ⟨?_, ?_, ?_⟩
  · intro t2 h
    exact add_ok_frame t cur id t2 h s hs
  · intro t2 h
    exact start_ok_frame t cur now t2 h s hs
  · intro t2 c h
    exact add_ok_frame t cur id t2 (syscall_ok_inv t cur id args t2 c h) s hs

/-- Witness for C8: recording in slot 0 of the sample store leaves
slot 1's whole record unchanged. -/
theorem stats_ops_frame_other_slots_witness :
    (1 : Nat) ≠ 0 ∧
    sampleTasks.add_syscall_times 0 1 = .ok sampleTasks2 ∧
    sampleTasks2.inner.value[1]? = sampleTasks.inner.value[1]? :=
  ⟨by decide, rfl,
    (stats_ops_frame_other_slots sampleTasks 0 1 1 0 (0, 0, 0) (by decide)).1
      sampleTasks2 rfl⟩
